import Mathlib

/-!
Shallow embedding of `regenag-x/farm_analysis_analytics.extended.py`.

The script loads one JSON file into a table, and for every numeric
non-denylisted column decides a hypothesis test (Skip / ANOVA / Welch /
Kruskal) from normality and variance-homogeneity diagnostics, runs it per
grouping column, optionally runs a post-hoc pairwise test, and accumulates a
text report.

Modelling conventions:
- p-values and numeric cell values are `ℚ` (the script compares and formats
  machine floats; the branch structure is float-rounding independent);
- a column is a row-aligned `List (Option ℚ)` (`none` = missing/NaN), a
  grouping column a row-aligned `List (Option String)`;
- the statistical library routines (`shapiro`, `levene`, `kruskal`, the
  statsmodels OLS/anova fits, and the post-hoc renderers) are uninterpreted
  oracles collected in `Oracles`; an oracle that may raise a Python exception
  returns `Except String` (or `Option` where the source catches every
  exception and the caught value is never inspected);
- the report is the list of strings the script appends to `report_lines`.
-/

/-- `MIN_SAMPLE = 4` in the source. -/
def MIN_SAMPLE : ℕ := 4

/-- `MAX_NA_RATIO = 0.5` in the source. -/
def MAX_NA_RATIO : ℚ := 0.5

/-- `INPUT_DIR = "/data/inputs"` in the source. -/
def INPUT_DIR : String := "/data/inputs"

/-- `SKIP_FILES = {"algoCustomData.json"}` in the source. -/
def SKIP_FILES : List String := ["algoCustomData.json"]

/-- `GROUP_COLS = ["Kind of farm"]` in the source. -/
def GROUP_COLS : List String := ["Kind of farm"]

/-- `SKIP_COLS = ["Farm ID", "Plot", "Time of sampling", "Soil type"]`. -/
def SKIP_COLS : List String := ["Farm ID", "Plot", "Time of sampling", "Soil type"]

/-- `data_files = [f for f in os.listdir(INPUT_DIR) if f not in SKIP_FILES]`,
`if not data_files: raise RuntimeError(...)`, `DATA_FILE = data_files[0]`.
The directory listing is the argument; the fatal `RuntimeError` is the
`Except.error` case. -/
def selectDataFile (files : List String) : Except String String :=
  match files.filter (fun f => f ∉ SKIP_FILES) with
  | [] => .error ("No usable input files found in " ++ INPUT_DIR)
  | f :: _ => .ok f

/-- `series.dropna()` on a numeric column: the non-missing values in order. -/
def dropna (vals : List (Option ℚ)) : List ℚ := vals.filterMap id

/-- `df[col].isna().mean()`: fraction of missing entries.  On an empty column
pandas yields NaN and `NaN > 0.5` is false; here `0 / 0 = 0` and `0 > 0.5` is
false, so the downstream branch agrees. -/
def naRatio (vals : List (Option ℚ)) : ℚ :=
  ((vals.countP fun v => v.isNone : ℕ) : ℚ) / ((vals.length : ℕ) : ℚ)

/-- `test_normality(series)`: `None` when the sample is too small, otherwise a
`shapiro` call whose exceptions the source catches into `None`; the oracle's
`none` is that caught-exception case. -/
def test_normality (shapiroFn : List ℚ → Option ℚ) (series : List ℚ) : Option ℚ :=
  if series.length < MIN_SAMPLE then none
  else shapiroFn series

/-- Lexicographic comparison of character lists by code point, the order in
which pandas `groupby` sorts string keys. -/
def charListLe : List Char → List Char → Bool
  | [], _ => true
  | _ :: _, [] => false
  | a :: as, b :: bs =>
    if a.toNat < b.toNat then true
    else if b.toNat < a.toNat then false
    else charListLe as bs

/-- Lexicographic string order by code point. -/
def strLe (a b : String) : Bool := charListLe a.data b.data

/-- Insertion of a key into a sorted key list (pandas `groupby` sorts group
keys). -/
def insertKey (x : String) : List String → List String
  | [] => [x]
  | y :: ys => if strLe x y then x :: y :: ys else y :: insertKey x ys

/-- Insertion sort over `String` order, used to model the sorted group keys of
pandas `groupby`. -/
def sortKeys : List String → List String
  | [] => []
  | x :: xs => insertKey x (sortKeys xs)

/-- The distinct non-missing keys of the grouping column, in pandas `groupby`
order (sorted).  Rows with a missing group key are dropped, as `groupby`
does. -/
def groupKeys (gvals : List (Option String)) : List String :=
  sortKeys (gvals.filterMap id).dedup

/-- `g[col].dropna().values` for the group of key `k`: the non-missing values
of the column on rows whose group key equals `k`. -/
def groupValues (vals : List (Option ℚ)) (gvals : List (Option String))
    (k : String) : List ℚ :=
  (vals.zip gvals).filterMap fun vg => if vg.2 = some k then vg.1 else none

/-- The list comprehension shared by `test_variances` and `run_kruskal`:
per-group non-missing value arrays, keeping only groups with
`len(...) >= MIN_SAMPLE`. -/
def qualifyingGroups (vals : List (Option ℚ)) (gvals : List (Option String)) :
    List (List ℚ) :=
  ((groupKeys gvals).map (groupValues vals gvals)).filter
    fun g => MIN_SAMPLE ≤ g.length

/-- `test_variances(df, col, group_col)`: `None` when fewer than 2 qualifying
groups, otherwise the `levene` p-value over them.  The source wraps `levene`
in no handler, and SciPy's `levene` raises only on fewer than two samples
(guarded here), so the oracle is total. -/
def test_variances (leveneFn : List (List ℚ) → ℚ) (vals : List (Option ℚ))
    (gvals : List (Option String)) : Option ℚ :=
  let groups := qualifyingGroups vals gvals
  if groups.length < 2 then none else some (leveneFn groups)

/-- The four test tags of `recommend_test`. -/
inductive TestKind where
  | SKIP
  | ANOVA
  | Welch
  | Kruskal
deriving Repr, DecidableEq

/-- The string the script prints for each tag. -/
def TestKind.toStr : TestKind → String
  | .SKIP => "SKIP"
  | .ANOVA => "ANOVA"
  | .Welch => "Welch"
  | .Kruskal => "Kruskal"

/-- `recommend_test(normal_p, variance_p)`: the four-way decision table. -/
def recommend_test (normal_p variance_p : Option ℚ) : TestKind :=
  match normal_p with
  | none => .SKIP
  | some np =>
    if np > 0.05 then
      match variance_p with
      | none => .ANOVA
      | some vp => if vp > 0.05 then .ANOVA else .Welch
    else .Kruskal

/-- `run_anova(df, col, group)`: its body is entirely statsmodels library
calls (OLS fit, type-II `anova_lm`, table lookup), modelled by the oracle;
the source wraps them in no exception handler, so a failure propagates. -/
def run_anova (anovaFn : List (Option ℚ) → List (Option String) → Except String ℚ)
    (vals : List (Option ℚ)) (gvals : List (Option String)) : Except String ℚ :=
  anovaFn vals gvals

/-- `run_welch(df, col, group)`: as `run_anova` but with the HC3-robust
`anova_lm`; again no exception handler in the source. -/
def run_welch (welchFn : List (Option ℚ) → List (Option String) → Except String ℚ)
    (vals : List (Option ℚ)) (gvals : List (Option String)) : Except String ℚ :=
  welchFn vals gvals

/-- `run_kruskal(df, col, group)`: per-group arrays with `< MIN_SAMPLE`
groups excluded; `None` when fewer than 2 remain; `1.0` when all values over
all qualifying groups are identical; otherwise the `kruskal` call, with any
exception caught into `1.0`. -/
def run_kruskal (kruskalFn : List (List ℚ) → Except String ℚ)
    (vals : List (Option ℚ)) (gvals : List (Option String)) : Option ℚ :=
  let groups := qualifyingGroups vals gvals
  if groups.length < 2 then none
  else
    let all_vals := groups.flatten
    if all_vals.all fun v => v = all_vals.headI then some 1
    else
      match kruskalFn groups with
      | .ok p => some p
      | .error _ => some 1

/-- `temp = df[[col, group]].dropna()`: rows where both the measurement and
the group key are present. -/
def pairedRows (vals : List (Option ℚ)) (gvals : List (Option String)) :
    List (ℚ × String) :=
  (vals.zip gvals).filterMap fun vg =>
    match vg.1, vg.2 with
    | some v, some g => some (v, g)
    | _, _ => none

/-- `temp[group].nunique()` after the dropna: distinct group levels paired
with a non-missing measurement. -/
def nuniqueLevels (vals : List (Option ℚ)) (gvals : List (Option String)) : ℕ :=
  ((pairedRows vals gvals).map Prod.snd).dedup.length

/-- The pairwise-comparison library call `posthoc_test` makes; the string
rendering of the result is an oracle applied later. -/
inductive PosthocCall where
  | tukey (endog : List ℚ) (groups : List String)
  | dunn (pairs : List (ℚ × String)) (p_adjust : String)
deriving Repr, DecidableEq

/-- `posthoc_test(df, col, group, test_type)`: `None` when the paired frame
has fewer than 2 distinct levels; `pairwise_tukeyhsd(temp[col], temp[group])`
for the ANOVA/Welch family; `posthoc_dunn(temp, ..., p_adjust="bonferroni")`
for Kruskal; `None` for any other tag. -/
def posthoc_test (vals : List (Option ℚ)) (gvals : List (Option String))
    (test_type : TestKind) : Option PosthocCall :=
  let temp := pairedRows vals gvals
  if nuniqueLevels vals gvals < 2 then none
  else
    match test_type with
    | .ANOVA => some (.tukey (temp.map Prod.fst) (temp.map Prod.snd))
    | .Welch => some (.tukey (temp.map Prod.fst) (temp.map Prod.snd))
    | .Kruskal => some (.dunn temp "bonferroni")
    | .SKIP => none

/-- Formatting of a non-`None` p-value in `f"...{p:.4f}..."` style: `d`
fixed decimal places.  `digitChar10 n` is the digit character of `n % 10`. -/
def digitChar10 (n : ℕ) : Char := Char.ofNat (48 + n % 10)

/-- The `d` digit characters of `m` (mod `10 ^ d`), most significant first,
zero padded. -/
def padDigits : ℕ → ℕ → List Char
  | 0, _ => []
  | d + 1, m => padDigits d (m / 10) ++ [digitChar10 m]

/-- Python `"%.df"` fixed-point formatting on the rational model: round to
`d` decimal places and print with exactly `d` fractional digits.  (CPython
rounds the underlying binary float to nearest; the tie direction is
immaterial for the claims and is modelled as half-up.) -/
def formatFixed (d : ℕ) (q : ℚ) : String :=
  let n : ℤ := ⌊q * (10 : ℚ) ^ d + 1 / 2⌋
  let m : ℕ := n.natAbs
  (if n < 0 then "-" else "") ++ toString (m / 10 ^ d) ++ "." ++
    String.mk (padDigits d (m % 10 ^ d))

/-- `short_conclusion(col, group, p)`. -/
def short_conclusion (col group : String) (p : Option ℚ) : String :=
  match p with
  | none => col ++ " by " ++ group ++ ": not enough data."
  | some pv =>
    if pv < 0.05 then
      col ++ " differs between groups " ++ group ++ " (p=" ++ formatFixed 4 pv ++ ")."
    else
      col ++ " does not differ between groups " ++ group ++ " (p=" ++ formatFixed 4 pv ++ ")."

/-- The uninterpreted statistical library routines.  `shapiroFn`'s `none` is
the caught-exception branch of `test_normality`; `kruskalFn`, `anovaFn` and
`welchFn` may raise (`Except.error`); `renderTukey`/`renderDunn` are the
`str(...)`/`.to_string()` renderings of the post-hoc results. -/
structure Oracles where
  shapiroFn : List ℚ → Option ℚ
  leveneFn : List (List ℚ) → ℚ
  kruskalFn : List (List ℚ) → Except String ℚ
  anovaFn : List (Option ℚ) → List (Option String) → Except String ℚ
  welchFn : List (Option ℚ) → List (Option String) → Except String ℚ
  renderTukey : List ℚ → List String → String
  renderDunn : List (ℚ × String) → String → String

/-- The `if test == ... : p = run_...` dispatch of the main loop.  ANOVA and
Welch failures propagate (`Except`); Kruskal and SKIP never raise. -/
def groupP (o : Oracles) (test : TestKind) (vals : List (Option ℚ))
    (gvals : List (Option String)) : Except String (Option ℚ) :=
  match test with
  | .ANOVA => Except.map some (run_anova o.anovaFn vals gvals)
  | .Welch => Except.map some (run_welch o.welchFn vals gvals)
  | .Kruskal => .ok (run_kruskal o.kruskalFn vals gvals)
  | .SKIP => .ok none

/-- The `if p is not None and p < 0.05: post = posthoc_test(...)` trigger:
`none` when not triggered, `some post` when the post-hoc ran with result
`post`. -/
def mkPosthoc (vals : List (Option ℚ)) (gvals : List (Option String))
    (test : TestKind) (p : Option ℚ) : Option (Option PosthocCall) :=
  match p with
  | some pv => if pv < 0.05 then some (posthoc_test vals gvals test) else none
  | none => none

/-- What one iteration of `for gcol in GROUP_COLS` computes for a column. -/
structure GroupResult where
  gcol : String
  variance_p : Option ℚ
  test : TestKind
  p : Option ℚ
  posthoc : Option (Option PosthocCall)
deriving Repr, DecidableEq

/-- One iteration of the inner `for gcol in GROUP_COLS` loop: variance test,
test selection, test run (ANOVA/Welch failures abort), post-hoc trigger. -/
def analyzeGroup (o : Oracles) (vals : List (Option ℚ)) (normal_p : Option ℚ)
    (gcol : String) (gvals : List (Option String)) : Except String GroupResult :=
  match groupP o (recommend_test normal_p (test_variances o.leveneFn vals gvals)) vals gvals with
  | .error e => .error e
  | .ok p =>
    .ok ⟨gcol, test_variances o.leveneFn vals gvals,
      recommend_test normal_p (test_variances o.leveneFn vals gvals), p,
      mkPosthoc vals gvals (recommend_test normal_p (test_variances o.leveneFn vals gvals)) p⟩

/-- The inner loop over the grouping columns, left to right; an ANOVA/Welch
failure aborts the whole run as in the source. -/
def analyzeGroups (o : Oracles) (vals : List (Option ℚ)) (normal_p : Option ℚ) :
    List (String × List (Option String)) → Except String (List GroupResult)
  | [] => .ok []
  | g :: gs =>
    match analyzeGroup o vals normal_p g.1 g.2 with
    | .error e => .error e
    | .ok r =>
      match analyzeGroups o vals normal_p gs with
      | .error e => .error e
      | .ok rs => .ok (r :: rs)

/-- What the body of `for col in numeric_cols` computes for one column (after
the `SKIP_COLS` filter): either the early `[SKIP]` branch, or the header data
plus one `GroupResult` per grouping column. -/
inductive ColReport where
  | skipped
  | analyzed (n : ℕ) (na_ratio : ℚ) (normal_p : Option ℚ) (groups : List GroupResult)
deriving Repr, DecidableEq

/-- The main-loop body for one column: `series = df[col].dropna()`,
`n = len(series)`, `na_ratio = df[col].isna().mean()`; skip when
`n < MIN_SAMPLE or na_ratio > MAX_NA_RATIO`; otherwise compute `normal_p`
once on the full non-missing series and run the grouping-column loop. -/
def analyzeCol (o : Oracles) (grps : List (String × List (Option String)))
    (vals : List (Option ℚ)) : Except String ColReport :=
  if (dropna vals).length < MIN_SAMPLE ∨ naRatio vals > MAX_NA_RATIO then
    .ok .skipped
  else
    match analyzeGroups o vals (test_normality o.shapiroFn (dropna vals)) grps with
    | .error e => .error e
    | .ok rs =>
      .ok (.analyzed (dropna vals).length (naRatio vals)
        (test_normality o.shapiroFn (dropna vals)) rs)

/-- `None`/value printing of an optional p-value inside an f-string. -/
def strOfOptQ : Option ℚ → String
  | none => "None"
  | some q => toString q

/-- `str(post)` in `report_lines.append("Post-hoc:\n" + str(post))`:
`"None"` when `posthoc_test` returned `None`, otherwise the rendered
library result. -/
def strOfPosthoc (o : Oracles) : Option PosthocCall → String
  | none => "None"
  | some (.tukey endog gs) => o.renderTukey endog gs
  | some (.dunn pairs adj) => o.renderDunn pairs adj

/-- The report lines the inner loop appends for one grouping column. -/
def renderGroup (o : Oracles) (col : String) (r : GroupResult) : List String :=
  [col ++ " by " ++ r.gcol ++ ": test=" ++ r.test.toStr ++ ", variance_p=" ++
      strOfOptQ r.variance_p ++ ", p=" ++ strOfOptQ r.p,
   short_conclusion col r.gcol r.p] ++
  (match r.posthoc with
   | none => []
   | some post => ["Post-hoc:\n" ++ strOfPosthoc o post])

/-- The report lines the main loop appends for one column. -/
def renderCol (o : Oracles) (col : String) : ColReport → List String
  | .skipped => ["[SKIP] " ++ col ++ ": insufficient data\n"]
  | .analyzed n na_ratio normal_p rs =>
    ["\n=== " ++ col ++ " ===",
     "n=" ++ toString n ++ ", NA ratio=" ++ formatFixed 2 na_ratio ++
       ", normality_p=" ++ strOfOptQ normal_p] ++
    rs.foldl (fun acc r => acc ++ renderGroup o col r) []

/-- The full main-loop body for one named column: `if col in SKIP_COLS:
continue` appends nothing; otherwise analyze and render. -/
def processCol (o : Oracles) (grps : List (String × List (Option String)))
    (col : String) (vals : List (Option ℚ)) : Except String (List String) :=
  if SKIP_COLS.contains col then .ok []
  else Except.map (renderCol o col) (analyzeCol o grps vals)

/-- The numeric columns of the loaded table (name and row-aligned values, in
the table's column order) and the grouping columns named by `GROUP_COLS`. -/
structure DF where
  cols : List (String × List (Option ℚ))
  grps : List (String × List (Option String))

/-- The whole `for col in numeric_cols` loop: `report_lines` accumulated in
column order. -/
def runReport (o : Oracles) (df : DF) : Except String (List String) :=
  df.cols.foldlM (fun acc c => Except.map (fun ls => acc ++ ls) (processCol o df.grps c.1 c.2)) []

/-- File selection followed by the analysis: the `RuntimeError` raised when
no usable input file exists aborts before any report line is produced.  (The
JSON parse of the selected file, which yields `df`, is outside the model.) -/
def pipeline (o : Oracles) (files : List String) (df : DF) :
    Except String (List String) :=
  match selectDataFile files with
  | .error e => .error e
  | .ok _ => runReport o df

/-- Example column with four measurements, none missing. -/
def exVals4 : List (Option ℚ) := [some 1, some 2, some 3, some 4]

/-- Example grouping column whose keys are all missing. -/
def exGnone4 : List (Option String) := [none, none, none, none]

/-- Example column with eight measurements (the end-to-end scenario of the
spec). -/
def exVals8 : List (Option ℚ) :=
  [some 10, some 11, some 12, some 13, some 50, some 51, some 52, some 53]

/-- Example grouping column: two farm kinds, four rows each. -/
def exGvals8 : List (Option String) :=
  [some "A", some "A", some "A", some "A", some "B", some "B", some "B", some "B"]

/-- Oracles whose library calls all succeed: Shapiro p `1/2`, Levene p `1/2`,
Kruskal p `1/2`, group-effect p `1/100` from both anova tables. -/
def okOracles : Oracles where
  shapiroFn := fun _ => some (1/2)
  leveneFn := fun _ => 1/2
  kruskalFn := fun _ => .ok (1/2)
  anovaFn := fun _ _ => .ok (1/100)
  welchFn := fun _ _ => .ok (1/100)
  renderTukey := fun _ _ => ""
  renderDunn := fun _ _ => ""

/-- Oracles whose statsmodels/scipy test calls raise, as on degenerate
input. -/
def failingAnovaOracles : Oracles where
  shapiroFn := fun _ => some (1/2)
  leveneFn := fun _ => 1/2
  kruskalFn := fun _ => .error "kruskal numerical failure"
  anovaFn := fun _ _ => .error "anova numerical failure"
  welchFn := fun _ _ => .error "welch numerical failure"
  renderTukey := fun _ _ => ""
  renderDunn := fun _ _ => ""

/-- A rank-sum oracle that always raises. -/
def exKfBoom : List (List ℚ) → Except String ℚ := fun _ => .error "boom"

theorem mem_insertKey {a x : String} {l : List String} :
    a ∈ insertKey x l ↔ a = x ∨ a ∈ l := by
  induction l with
  | nil => simp [insertKey]
  | cons y ys ih =>
    simp only [insertKey]
    by_cases h : strLe x y = true
    · rw [if_pos h]; simp
    · rw [if_neg h]
      simp [ih]
      tauto

theorem mem_sortKeys {a : String} {l : List String} :
    a ∈ sortKeys l ↔ a ∈ l := by
  induction l with
  | nil => simp [sortKeys]
  | cons x xs ih => simp [sortKeys, mem_insertKey, ih]

theorem mem_groupKeys {k : String} {gvals : List (Option String)} :
    k ∈ groupKeys gvals ↔ some k ∈ gvals := by
  simp only [groupKeys, mem_sortKeys, List.mem_dedup, List.mem_filterMap, id_eq]
  constructor
  · rintro ⟨a, ha, rfl⟩; exact ha
  · intro h; exact ⟨some k, h, rfl⟩

theorem padDigits_length (d m : ℕ) : (padDigits d m).length = d := by
  induction d generalizing m with
  | zero => rfl
  | succ d ih => simp [padDigits, ih]

theorem analyzeGroup_ok {o : Oracles} {vals : List (Option ℚ)} {np : Option ℚ}
    {gcol : String} {gvals : List (Option String)} {r : GroupResult}
    (h : analyzeGroup o vals np gcol gvals = .ok r) :
    r.gcol = gcol ∧
    r.variance_p = test_variances o.leveneFn vals gvals ∧
    r.test = recommend_test np (test_variances o.leveneFn vals gvals) ∧
    groupP o r.test vals gvals = .ok r.p ∧
    r.posthoc = mkPosthoc vals gvals r.test r.p := by
  unfold analyzeGroup at h
  cases hg : groupP o (recommend_test np (test_variances o.leveneFn vals gvals)) vals gvals with
  | error e => rw [hg] at h; cases h
  | ok p =>
    rw [hg] at h
    cases h
    exact ⟨rfl, rfl, rfl, hg, rfl⟩

theorem analyzeGroups_mem {o : Oracles} {vals : List (Option ℚ)} {np : Option ℚ}
    {grps : List (String × List (Option String))} {rs : List GroupResult}
    (h : analyzeGroups o vals np grps = .ok rs) :
    ∀ r ∈ rs, ∃ g ∈ grps, analyzeGroup o vals np g.1 g.2 = .ok r := by
  induction grps generalizing rs with
  | nil =>
    unfold analyzeGroups at h
    cases h
    intro r hr
    cases hr
  | cons g gs ih =>
    unfold analyzeGroups at h
    cases h1 : analyzeGroup o vals np g.1 g.2 with
    | error e => rw [h1] at h; cases h
    | ok r0 =>
      rw [h1] at h
      cases h2 : analyzeGroups o vals np gs with
      | error e => rw [h2] at h; cases h
      | ok rs0 =>
        rw [h2] at h
        cases h
        intro r hr
        rcases List.mem_cons.1 hr with rfl | hr
        · exact ⟨g, List.mem_cons_self g gs, h1⟩
        · rcases ih h2 r hr with ⟨g', hg', hok⟩
          exact ⟨g', List.mem_cons_of_mem g hg', hok⟩

theorem half_gt_alpha : ((1 : ℚ)/2 > 0.05) := by norm_num

theorem centile_lt_alpha : ((1 : ℚ)/100 < 0.05) := by norm_num

theorem test_variances_exGnone (lev : List (List ℚ) → ℚ) :
    test_variances lev exVals4 exGnone4 = none := by
  have hq : qualifyingGroups exVals4 exGnone4 = [] := by decide
  unfold test_variances
  rw [hq]
  exact rfl

theorem recommend_half_none : recommend_test (some (1/2)) none = .ANOVA := by
  simp only [recommend_test]
  rw [if_pos half_gt_alpha]

theorem posthoc_exGnone (t : TestKind) : posthoc_test exVals4 exGnone4 t = none := by
  cases t <;> decide

theorem mkPosthoc_exGnone :
    mkPosthoc exVals4 exGnone4 .ANOVA (some (1/100)) = some none := by
  show (if (1/100 : ℚ) < 0.05 then some (posthoc_test exVals4 exGnone4 .ANOVA) else none) =
    some none
  rw [if_pos centile_lt_alpha, posthoc_exGnone]

theorem analyzeGroup_okOracles_eval :
    analyzeGroup okOracles exVals4 (some (1/2)) "Kind of farm" exGnone4 =
      .ok ⟨"Kind of farm", none, .ANOVA, some (1/100), some none⟩ := by
  unfold analyzeGroup
  rw [test_variances_exGnone, recommend_half_none]
  show Except.ok (GroupResult.mk "Kind of farm" none .ANOVA (some (1/100))
      (mkPosthoc exVals4 exGnone4 .ANOVA (some (1/100)))) =
    Except.ok (GroupResult.mk "Kind of farm" none .ANOVA (some (1/100)) (some none))
  rw [mkPosthoc_exGnone]

theorem exCond4 :
    ¬ ((dropna exVals4).length < MIN_SAMPLE ∨ naRatio exVals4 > MAX_NA_RATIO) := by
  push_neg
  refine ⟨by decide, ?_⟩
  have h : naRatio exVals4 = ((0 : ℕ) : ℚ) / ((4 : ℕ) : ℚ) := rfl
  rw [h]
  norm_num [ MAX_NA_RATIO]

theorem analyzeGroups_okOracles_eval :
    analyzeGroups okOracles exVals4 (some (1/2)) [("Kind of farm", exGnone4)] =
      .ok [GroupResult.mk "Kind of farm" none .ANOVA (some (1/100)) (some none)] := by
  show (match analyzeGroup okOracles exVals4 (some (1/2)) "Kind of farm" exGnone4 with
    | Except.error e => Except.error e
    | Except.ok r =>
      match analyzeGroups okOracles exVals4 (some (1/2)) [] with
      | Except.error e => Except.error e
      | Except.ok rs => Except.ok (r :: rs)) =
    Except.ok [GroupResult.mk "Kind of farm" none .ANOVA (some (1/100)) (some none)]
  rw [analyzeGroup_okOracles_eval]
  exact rfl

theorem analyzeCol_okOracles_eval :
    analyzeCol okOracles [("Kind of farm", exGnone4)] exVals4 =
      .ok (.analyzed 4 (naRatio exVals4) (some (1/2))
        [GroupResult.mk "Kind of farm" none .ANOVA (some (1/100)) (some none)]) := by
  unfold analyzeCol
  rw [if_neg exCond4]
  have hnp : test_normality okOracles.shapiroFn (dropna exVals4) = some (1/2) := rfl
  rw [hnp, analyzeGroups_okOracles_eval]
  exact rfl

theorem analyzeGroup_failing_eval :
    analyzeGroup failingAnovaOracles exVals4 (some (1/2)) "Kind of farm" exGnone4 =
      .error "anova numerical failure" := by
  unfold analyzeGroup
  rw [test_variances_exGnone, recommend_half_none]
  exact rfl

theorem analyzeGroups_failing_eval :
    analyzeGroups failingAnovaOracles exVals4 (some (1/2)) [("Kind of farm", exGnone4)] =
      .error "anova numerical failure" := by
  show (match analyzeGroup failingAnovaOracles exVals4 (some (1/2)) "Kind of farm" exGnone4 with
    | Except.error e => Except.error e
    | Except.ok r =>
      match analyzeGroups failingAnovaOracles exVals4 (some (1/2)) [] with
      | Except.error e => Except.error e
      | Except.ok rs => Except.ok (r :: rs)) =
    Except.error "anova numerical failure"
  rw [analyzeGroup_failing_eval]

theorem analyzeCol_failing_eval :
    analyzeCol failingAnovaOracles [("Kind of farm", exGnone4)] exVals4 =
      .error "anova numerical failure" := by
  unfold analyzeCol
  rw [if_neg exCond4]
  have hnp : test_normality failingAnovaOracles.shapiroFn (dropna exVals4) = some (1/2) := rfl
  rw [hnp, analyzeGroups_failing_eval]

theorem all_eq_headI_of_pairwise {l : List ℚ}
    (h : ∀ v ∈ l, ∀ w ∈ l, v = w) : (l.all fun v => v = l.headI) = true := by
  rw [List.all_eq_true]
  intro v hv
  rw [decide_eq_true_eq]
  cases l with
  | nil => cases hv
  | cons a as => exact h v hv a (List.mem_cons_self a as)

/-- C3 counterexample: with oracles whose anova call raises (degenerate
input) and a column selected for ANOVA, the run aborts with the error instead
of continuing with p = 1.0. -/
theorem C3_counterexample :
    processCol failingAnovaOracles [("Kind of farm", exGnone4)] "Yield" exVals4 =
      .error "anova numerical failure" := by
  unfold processCol
  rw [if_neg (by decide : ¬ SKIP_COLS.contains "Yield" = true)]
  rw [analyzeCol_failing_eval]
  exact rfl

/-- C3 (amended): the p = 1.0 recovery on a numerical test failure applies
only to the Kruskal runner; the ANOVA and Welch runners propagate their
library failures unchanged, aborting the run. -/
theorem C3_only_kruskal_recovers (kf : List (List ℚ) → Except String ℚ) (e : String)
    (vals : List (Option ℚ)) (gvals : List (Option String))
    (h2 : 2 ≤ (qualifyingGroups vals gvals).length)
    (herr : kf (qualifyingGroups vals gvals) = .error e) :
    run_kruskal kf vals gvals = some 1 ∧
    (∀ af e2, af vals gvals = Except.error e2 →
      run_anova af vals gvals = Except.error e2) ∧
    (∀ wf e2, wf vals gvals = Except.error e2 →
      run_welch wf vals gvals = Except.error e2) := by
  refine ⟨?_, fun af e2 h => h, fun wf e2 h => h⟩
  show (if (qualifyingGroups vals gvals).length < 2 then none
    else if (qualifyingGroups vals gvals).flatten.all
        (fun v => v = (qualifyingGroups vals gvals).flatten.headI) then some 1
    else match kf (qualifyingGroups vals gvals) with
      | .ok p => some p
      | .error _ => some 1) = some 1
  rw [if_neg (by omega)]
  by_cases hall : ((qualifyingGroups vals gvals).flatten.all
      fun v => v = (qualifyingGroups vals gvals).flatten.headI) = true
  · rw [if_pos hall]
  · rw [if_neg hall, herr]

theorem C3_only_kruskal_recovers_witness :
    run_kruskal exKfBoom exVals8 exGvals8 = some 1 :=
  (C3_only_kruskal_recovers exKfBoom "boom" exVals8 exGvals8 (by decide) rfl).1

/-- C4: the Kruskal runner excludes groups with fewer than 4 non-missing
values, returns `None` when fewer than 2 qualifying groups remain, returns
exactly p = 1.0 when all values across the qualifying groups are identical,
returns p = 1.0 on any failure of the rank-sum call, and otherwise returns
the rank-sum p-value. -/
theorem C4_run_kruskal_contract (kf : List (List ℚ) → Except String ℚ)
    (vals : List (Option ℚ)) (gvals : List (Option String)) :
    (∀ g ∈ qualifyingGroups vals gvals, 4 ≤ g.length) ∧
    ((qualifyingGroups vals gvals).length < 2 → run_kruskal kf vals gvals = none) ∧
    (2 ≤ (qualifyingGroups vals gvals).length →
      (∀ v ∈ (qualifyingGroups vals gvals).flatten,
        ∀ w ∈ (qualifyingGroups vals gvals).flatten, v = w) →
      run_kruskal kf vals gvals = some 1) ∧
    (∀ e, 2 ≤ (qualifyingGroups vals gvals).length →
      kf (qualifyingGroups vals gvals) = .error e → run_kruskal kf vals gvals = some 1) ∧
    (∀ p, 2 ≤ (qualifyingGroups vals gvals).length →
      (∃ v ∈ (qualifyingGroups vals gvals).flatten,
        ∃ w ∈ (qualifyingGroups vals gvals).flatten, v ≠ w) →
      kf (qualifyingGroups vals gvals) = .ok p → run_kruskal kf vals gvals = some p) := by
  have hbody : run_kruskal kf vals gvals =
      (if (qualifyingGroups vals gvals).length < 2 then none
      else if (qualifyingGroups vals gvals).flatten.all
          (fun v => v = (qualifyingGroups vals gvals).flatten.headI) then some 1
      else match kf (qualifyingGroups vals gvals) with
        | .ok p => some p
        | .error _ => some 1) := rfl
  refine ⟨?_, ?_, ?_, ?_, ?_⟩
  · intro g hg
    exact of_decide_eq_true (List.mem_filter.1 hg).2
  · intro h
    rw [hbody, if_pos h]
  · intro h2 hid
    rw [hbody, if_neg (by omega), if_pos (all_eq_headI_of_pairwise hid)]
  · intro e h2 herr
    rw [hbody, if_neg (by omega)]
    by_cases hall : ((qualifyingGroups vals gvals).flatten.all
        fun v => v = (qualifyingGroups vals gvals).flatten.headI) = true
    · rw [if_pos hall]
    · rw [if_neg hall, herr]
  · intro p h2 hne hok
    have hnall : ¬ ((qualifyingGroups vals gvals).flatten.all
        fun v => v = (qualifyingGroups vals gvals).flatten.headI) = true := by
      intro hall
      rcases hne with ⟨v, hv, w, hw, hvw⟩
      rw [List.all_eq_true] at hall
      exact hvw ((of_decide_eq_true (hall v hv)).trans
        (of_decide_eq_true (hall w hw)).symm)
    rw [hbody, if_neg (by omega), if_neg hnall, hok]

theorem C4_run_kruskal_contract_witness :
    run_kruskal (fun _ => Except.ok (1/2)) exVals4 exGnone4 = none :=
  (C4_run_kruskal_contract (fun _ => Except.ok (1/2)) exVals4 exGnone4).2.1 (by decide)

/-- C1: `recommend_test` implements the four-way decision table in strict
priority order: undefined normality → SKIP; normality > 0.05 and variance
undefined or > 0.05 → ANOVA; normality > 0.05 and variance ≤ 0.05 → Welch;
normality ≤ 0.05 → Kruskal.  Each output tag is equivalent to its case, and
the four cases are exhaustive (final disjunction) and mutually exclusive
(distinct tags, one per case). -/
theorem C1_decision_table (np vp : Option ℚ) :
    (recommend_test np vp = .SKIP ↔ np = none) ∧
    (recommend_test np vp = .ANOVA ↔
      ∃ x, np = some x ∧ (0.05 : ℚ) < x ∧
        (vp = none ∨ ∃ y, vp = some y ∧ (0.05 : ℚ) < y)) ∧
    (recommend_test np vp = .Welch ↔
      ∃ x y, np = some x ∧ (0.05 : ℚ) < x ∧ vp = some y ∧ y ≤ 0.05) ∧
    (recommend_test np vp = .Kruskal ↔ ∃ x, np = some x ∧ x ≤ 0.05) ∧
    ((np = none) ∨
      (∃ x, np = some x ∧ (0.05 : ℚ) < x ∧
        (vp = none ∨ ∃ y, vp = some y ∧ (0.05 : ℚ) < y)) ∨
      (∃ x y, np = some x ∧ (0.05 : ℚ) < x ∧ vp = some y ∧ y ≤ 0.05) ∨
      (∃ x, np = some x ∧ x ≤ 0.05)) := by
  cases np with
  | none => simp [recommend_test]
  | some x =>
    by_cases hx : (0.05 : ℚ) < x
    · cases vp with
      | none => simp [recommend_test, hx, not_le.2 hx]
      | some y =>
        by_cases hy : (0.05 : ℚ) < y
        · simp [recommend_test, hx, hy, not_le.2 hx, not_le.2 hy]
        · simp [recommend_test, hx, hy, not_le.2 hx, not_lt.1 hy]
    · cases vp with
      | none => simp [recommend_test, hx, not_lt.1 hx]
      | some y => simp [recommend_test, hx, not_lt.1 hx]

theorem C1_decision_table_witness :
    recommend_test (some (1/10)) (some (1/100)) = .Welch :=
  (C1_decision_table (some (1/10)) (some (1/100))).2.2.1.mpr
    ⟨1/10, 1/100, rfl, by norm_num, rfl, by norm_num⟩

/-- C2: a numeric non-denylisted column is tested only when its non-missing
count is ≥ 4 and its missing ratio is ≤ 0.5; otherwise its entire report
contribution is the single `[SKIP]` line — a value independent of every
statistical oracle, so no normality, variance or group test runs. -/
theorem C2_insufficient_data_skip (o : Oracles)
    (grps : List (String × List (Option String))) (col : String)
    (vals : List (Option ℚ)) (hcol : ¬ SKIP_COLS.contains col = true) :
    (analyzeCol o grps vals = .ok .skipped ↔
      (dropna vals).length < MIN_SAMPLE ∨ naRatio vals > MAX_NA_RATIO) ∧
    ((dropna vals).length < MIN_SAMPLE ∨ naRatio vals > MAX_NA_RATIO →
      processCol o grps col vals = .ok ["[SKIP] " ++ col ++ ": insufficient data\n"]) := by
  have hskip : ((dropna vals).length < MIN_SAMPLE ∨ naRatio vals > MAX_NA_RATIO) →
      analyzeCol o grps vals = .ok .skipped := by
    intro h
    unfold analyzeCol
    rw [if_pos h]
  constructor
  · constructor
    · intro h
      by_contra hc
      unfold analyzeCol at h
      rw [if_neg hc] at h
      cases hg : analyzeGroups o vals (test_normality o.shapiroFn (dropna vals)) grps with
      | error e => rw [hg] at h; cases h
      | ok rs => rw [hg] at h; simp at h
    · exact hskip
  · intro h
    unfold processCol
    rw [if_neg hcol, hskip h]
    exact rfl

theorem C2_insufficient_data_skip_witness :
    processCol okOracles [("Kind of farm", [none])] "Yield" [some 1] =
      .ok ["[SKIP] " ++ "Yield" ++ ": insufficient data\n"] :=
  (C2_insufficient_data_skip okOracles [("Kind of farm", [none])] "Yield" [some 1]
    (by decide)).2 (Or.inl (by decide))

/-- C6: the loader picks the first directory entry outside the fixed skip
set, and raises the fatal "no usable input" error exactly when every entry
is in the skip set (in particular on an empty listing); in that case the
pipeline aborts before producing any report line. -/
theorem C6_loader (files : List String) :
    ((∀ f ∈ files, f ∈ SKIP_FILES) ↔
      selectDataFile files = .error ("No usable input files found in " ++ INPUT_DIR)) ∧
    (∀ pre f post, files = pre ++ f :: post → f ∉ SKIP_FILES →
      (∀ g ∈ pre, g ∈ SKIP_FILES) → selectDataFile files = .ok f) ∧
    (∀ o df, (∀ f ∈ files, f ∈ SKIP_FILES) →
      pipeline o files df =
        .error ("No usable input files found in " ++ INPUT_DIR)) := by
  have hfilter : ∀ (l : List String),
      (∀ f ∈ l, f ∈ SKIP_FILES) ↔ l.filter (fun f => f ∉ SKIP_FILES) = [] := by
    intro l
    rw [List.filter_eq_nil_iff]
    constructor
    · intro h a ha
      simp [h a ha]
    · intro h a ha
      by_contra hna
      have h2 := h a ha
      simp [hna] at h2
  have hsel : (∀ f ∈ files, f ∈ SKIP_FILES) →
      selectDataFile files = .error ("No usable input files found in " ++ INPUT_DIR) := by
    intro h
    unfold selectDataFile
    rw [(hfilter files).1 h]
  refine ⟨⟨hsel, ?_⟩, ?_, ?_⟩
  · intro h
    rw [hfilter files]
    cases hF : files.filter (fun f => f ∉ SKIP_FILES) with
    | nil => rfl
    | cons a as =>
      unfold selectDataFile at h
      rw [hF] at h
      cases h
  · intro pre f post hsplit hf hpre
    subst hsplit
    unfold selectDataFile
    have hF : (pre ++ f :: post).filter (fun f2 => f2 ∉ SKIP_FILES) =
        f :: post.filter (fun f2 => f2 ∉ SKIP_FILES) := by
      rw [List.filter_append, (hfilter pre).1 hpre]
      simp [List.filter_cons, hf]
    rw [hF]
  · intro o df h
    unfold pipeline
    rw [hsel h]

theorem C6_loader_witness :
    selectDataFile ["algoCustomData.json", "data.json"] = .ok "data.json" :=
  (C6_loader ["algoCustomData.json", "data.json"]).2.1 ["algoCustomData.json"]
    "data.json" [] rfl (by decide) (by decide)

/-- C7: the variance-homogeneity p-value is the Levene call applied to
exactly the groups induced by the grouping column that have ≥ 4 non-missing
values in the column, and is `None` precisely when fewer than 2 such
qualifying groups exist. -/
theorem C7_test_variances_contract (lev : List (List ℚ) → ℚ)
    (vals : List (Option ℚ)) (gvals : List (Option String)) :
    (test_variances lev vals gvals = none ↔ (qualifyingGroups vals gvals).length < 2) ∧
    (2 ≤ (qualifyingGroups vals gvals).length →
      test_variances lev vals gvals = some (lev (qualifyingGroups vals gvals))) ∧
    (∀ g ∈ qualifyingGroups vals gvals,
      4 ≤ g.length ∧ ∃ k, some k ∈ gvals ∧ g = groupValues vals gvals k) ∧
    (∀ k, some k ∈ gvals → 4 ≤ (groupValues vals gvals k).length →
      groupValues vals gvals k ∈ qualifyingGroups vals gvals) := by
  have hbody : test_variances lev vals gvals =
      (if (qualifyingGroups vals gvals).length < 2 then none
      else some (lev (qualifyingGroups vals gvals))) := rfl
  refine ⟨?_, ?_, ?_, ?_⟩
  · rw [hbody]
    by_cases h : (qualifyingGroups vals gvals).length < 2
    · simp [h]
    · simp [h]
  · intro h2
    rw [hbody, if_neg (by omega)]
  · intro g hg
    have hmem := List.mem_filter.1 hg
    refine ⟨of_decide_eq_true hmem.2, ?_⟩
    obtain ⟨k, hk, hgk⟩ := List.mem_map.1 hmem.1
    exact ⟨k, mem_groupKeys.1 hk, hgk.symm⟩
  · intro k hk hlen
    unfold qualifyingGroups
    exact List.mem_filter.2
      ⟨List.mem_map_of_mem _ (mem_groupKeys.2 hk), decide_eq_true hlen⟩

theorem C7_test_variances_contract_witness :
    test_variances (fun _ => (1/3 : ℚ)) exVals8 exGvals8 = some (1/3) :=
  (C7_test_variances_contract (fun _ => (1/3 : ℚ)) exVals8 exGvals8).2.1 (by decide)

/-- C8: the one-line conclusion is "not enough data" for an undefined
p-value, "differs" with p rendered to 4 decimal places when p < 0.05, and
"does not differ" with p rendered to 4 decimal places otherwise (including
p = 0.05 exactly); the fixed-point rendering always carries exactly 4
fractional digits. -/
theorem C8_short_conclusion (col group : String) (p : Option ℚ) :
    (p = none →
      short_conclusion col group p = col ++ " by " ++ group ++ ": not enough data.") ∧
    (∀ x, p = some x → x < 0.05 →
      short_conclusion col group p =
        col ++ " differs between groups " ++ group ++ " (p=" ++ formatFixed 4 x ++ ").") ∧
    (∀ x, p = some x → ¬ x < 0.05 →
      short_conclusion col group p =
        col ++ " does not differ between groups " ++ group ++
          " (p=" ++ formatFixed 4 x ++ ").") ∧
    (∀ x : ℚ, ∃ s : String, ∃ t : List Char,
      formatFixed 4 x = s ++ "." ++ String.mk t ∧ t.length = 4) := by
  refine ⟨?_, ?_, ?_, ?_⟩
  · rintro rfl
    rfl
  · rintro x rfl hlt
    show (if x < 0.05 then _ else _) = _
    rw [if_pos hlt]
  · rintro x rfl hge
    show (if x < 0.05 then _ else _) = _
    rw [if_neg hge]
  · intro x
    exact ⟨(if (⌊x * (10 : ℚ) ^ 4 + 1 / 2⌋ : ℤ) < 0 then "-" else "") ++
        toString (⌊x * (10 : ℚ) ^ 4 + 1 / 2⌋.natAbs / 10 ^ 4),
      padDigits 4 (⌊x * (10 : ℚ) ^ 4 + 1 / 2⌋.natAbs % 10 ^ 4), rfl,
      padDigits_length 4 _⟩

theorem C8_short_conclusion_witness :
    short_conclusion "Yield" "Kind of farm" (some (1/20)) =
      "Yield" ++ " does not differ between groups " ++ "Kind of farm" ++
        " (p=" ++ formatFixed 4 (1/20) ++ ")." :=
  (C8_short_conclusion "Yield" "Kind of farm" (some (1/20))).2.2.1 (1/20) rfl (by norm_num)

theorem test_variances_ex8_ok :
    test_variances okOracles.leveneFn exVals8 exGvals8 = some (1/2) := by
  show (if (qualifyingGroups exVals8 exGvals8).length < 2 then none
    else some (okOracles.leveneFn (qualifyingGroups exVals8 exGvals8))) = some (1/2)
  rw [if_neg (by decide)]
  exact rfl

theorem recommend_half_half : recommend_test (some (1/2)) (some (1/2)) = .ANOVA := by
  show (if (1 : ℚ)/2 > 0.05 then (if (1 : ℚ)/2 > 0.05 then TestKind.ANOVA else TestKind.Welch)
    else TestKind.Kruskal) = TestKind.ANOVA
  rw [if_pos half_gt_alpha, if_pos half_gt_alpha]

theorem mkPosthoc_ex8 :
    mkPosthoc exVals8 exGvals8 .ANOVA (some (1/100)) =
      some (posthoc_test exVals8 exGvals8 .ANOVA) := by
  show (if (1/100 : ℚ) < 0.05 then some (posthoc_test exVals8 exGvals8 .ANOVA) else none) =
    some (posthoc_test exVals8 exGvals8 .ANOVA)
  rw [if_pos centile_lt_alpha]

theorem analyzeGroup_ex8_eval :
    analyzeGroup okOracles exVals8 (some (1/2)) "Kind of farm" exGvals8 =
      .ok (GroupResult.mk "Kind of farm" (some (1/2)) .ANOVA (some (1/100))
        (some (posthoc_test exVals8 exGvals8 .ANOVA))) := by
  unfold analyzeGroup
  rw [test_variances_ex8_ok, recommend_half_half]
  show Except.ok (GroupResult.mk "Kind of farm" (some (1/2)) .ANOVA (some (1/100))
      (mkPosthoc exVals8 exGvals8 .ANOVA (some (1/100)))) =
    Except.ok (GroupResult.mk "Kind of farm" (some (1/2)) .ANOVA (some (1/100))
      (some (posthoc_test exVals8 exGvals8 .ANOVA)))
  rw [mkPosthoc_ex8]

/-- C5: the post-hoc comparison runs iff the main test's p-value is defined
and strictly below 0.05 (p = 0.05 does not trigger it), with the pairwise
method chosen by family: Tukey HSD for ANOVA and Welch, Dunn with Bonferroni
correction for Kruskal. -/
theorem C5_posthoc_trigger (o : Oracles) (vals : List (Option ℚ)) (np : Option ℚ)
    (gcol : String) (gvals : List (Option String)) (r : GroupResult)
    (h : analyzeGroup o vals np gcol gvals = .ok r) :
    (r.posthoc ≠ none ↔ ∃ pv, r.p = some pv ∧ pv < 0.05) ∧
    (∀ post, r.posthoc = some post → post = posthoc_test vals gvals r.test) ∧
    (∀ t, 2 ≤ nuniqueLevels vals gvals →
      ((t = .ANOVA ∨ t = .Welch) →
        posthoc_test vals gvals t =
          some (.tukey ((pairedRows vals gvals).map Prod.fst)
            ((pairedRows vals gvals).map Prod.snd))) ∧
      (t = .Kruskal →
        posthoc_test vals gvals t =
          some (.dunn (pairedRows vals gvals) "bonferroni"))) := by
  obtain ⟨-, -, -, -, hpost⟩ := analyzeGroup_ok h
  refine ⟨?_, ?_, ?_⟩
  · rw [hpost]
    cases hp : r.p with
    | none => simp [mkPosthoc]
    | some pv =>
      by_cases hlt : pv < 0.05
      · simp [mkPosthoc, hlt]
      · simp [mkPosthoc, hlt]
  · intro post hp2
    rw [hpost] at hp2
    cases hp : r.p with
    | none => rw [hp] at hp2; cases hp2
    | some pv =>
      rw [hp] at hp2
      by_cases hlt : pv < 0.05
      · rw [show mkPosthoc vals gvals r.test (some pv) =
            (if pv < 0.05 then some (posthoc_test vals gvals r.test) else none) from rfl,
          if_pos hlt] at hp2
        cases hp2
        rfl
      · rw [show mkPosthoc vals gvals r.test (some pv) =
            (if pv < 0.05 then some (posthoc_test vals gvals r.test) else none) from rfl,
          if_neg hlt] at hp2
        cases hp2
  · intro t h2
    constructor
    · intro ht
      rcases ht with rfl | rfl
      · show (if nuniqueLevels vals gvals < 2 then none
          else some (PosthocCall.tukey ((pairedRows vals gvals).map Prod.fst)
            ((pairedRows vals gvals).map Prod.snd))) = _
        rw [if_neg (by omega)]
      · show (if nuniqueLevels vals gvals < 2 then none
          else some (PosthocCall.tukey ((pairedRows vals gvals).map Prod.fst)
            ((pairedRows vals gvals).map Prod.snd))) = _
        rw [if_neg (by omega)]
    · rintro rfl
      show (if nuniqueLevels vals gvals < 2 then none
        else some (PosthocCall.dunn (pairedRows vals gvals) "bonferroni")) = _
      rw [if_neg (by omega)]

theorem C5_posthoc_trigger_witness :
    posthoc_test exVals8 exGvals8 .Kruskal =
      some (.dunn (pairedRows exVals8 exGvals8) "bonferroni") :=
  ((C5_posthoc_trigger okOracles exVals8 (some (1/2)) "Kind of farm" exGvals8 _
    analyzeGroup_ex8_eval).2.2 .Kruskal (by decide)).2 rfl

/-- C9 (implicit): when the main p-value is defined and below 0.05 but,
after dropping rows missing the column or the grouping field, fewer than 2
distinct group levels remain, `posthoc_test` returns `None`, yet the report
still contains a post-hoc block whose body is the literal text `None`. -/
theorem C9_posthoc_none_block (o : Oracles) (col : String)
    (vals : List (Option ℚ)) (np : Option ℚ) (gcol : String)
    (gvals : List (Option String)) (r : GroupResult) (pv : ℚ)
    (h : analyzeGroup o vals np gcol gvals = .ok r)
    (hp : r.p = some pv) (hlt : pv < 0.05)
    (hn : nuniqueLevels vals gvals < 2) :
    r.posthoc = some none ∧ "Post-hoc:\nNone" ∈ renderGroup o col r := by
  obtain ⟨-, -, -, -, hpost⟩ := analyzeGroup_ok h
  have hpt : ∀ t, posthoc_test vals gvals t = none := by
    intro t
    simp only [posthoc_test]
    rw [if_pos hn]
  have hpost2 : r.posthoc = some none := by
    rw [hpost, hp]
    rw [show mkPosthoc vals gvals r.test (some pv) =
        (if pv < 0.05 then some (posthoc_test vals gvals r.test) else none) from rfl,
      if_pos hlt, hpt r.test]
  refine ⟨hpost2, ?_⟩
  unfold renderGroup
  rw [hpost2]
  refine List.mem_append_right _ ?_
  have he : ("Post-hoc:\n" ++ strOfPosthoc o none) = "Post-hoc:\nNone" := rfl
  exact List.mem_singleton.mpr he.symm

theorem C9_posthoc_none_block_witness :
    (GroupResult.mk "Kind of farm" none .ANOVA (some (1/100)) (some none)).posthoc =
        some none ∧
      "Post-hoc:\nNone" ∈ renderGroup okOracles "Yield"
        (GroupResult.mk "Kind of farm" none .ANOVA (some (1/100)) (some none)) :=
  C9_posthoc_none_block okOracles "Yield" exVals4 (some (1/2)) "Kind of farm" exGnone4
    _ (1/100) analyzeGroup_okOracles_eval rfl centile_lt_alpha (by decide)

/-- C10 (implicit): the normality p-value is computed once, on the column's
full non-missing series before any grouping, is the value recorded in the
header, and is reused for every grouping field — the test decision depends
on the grouping column only through the variance p-value. -/
theorem C10_normality_once (o : Oracles)
    (grps : List (String × List (Option String))) (vals : List (Option ℚ))
    (n : ℕ) (na : ℚ) (np : Option ℚ) (rs : List GroupResult)
    (h : analyzeCol o grps vals = .ok (.analyzed n na np rs)) :
    np = test_normality o.shapiroFn (dropna vals) ∧
    (∀ r ∈ rs,
      r.test = recommend_test (test_normality o.shapiroFn (dropna vals)) r.variance_p) ∧
    (∀ r1 ∈ rs, ∀ r2 ∈ rs, r1.variance_p = r2.variance_p → r1.test = r2.test) := by
  unfold analyzeCol at h
  by_cases hc : (dropna vals).length < MIN_SAMPLE ∨ naRatio vals > MAX_NA_RATIO
  · rw [if_pos hc] at h
    simp at h
  · rw [if_neg hc] at h
    cases hg : analyzeGroups o vals (test_normality o.shapiroFn (dropna vals)) grps with
    | error e => rw [hg] at h; cases h
    | ok rs0 =>
      rw [hg] at h
      simp only [Except.ok.injEq, ColReport.analyzed.injEq] at h
      obtain ⟨h1, h2, h3, h4⟩ := h
      subst h4
      refine ⟨h3.symm, ?_, ?_⟩
      · intro r hr
        obtain ⟨g, hgm, hok⟩ := analyzeGroups_mem hg r hr
        obtain ⟨-, hv, ht, -, -⟩ := analyzeGroup_ok hok
        rw [ht, hv]
      · intro r1 hr1 r2 hr2 hveq
        obtain ⟨g1, hg1, hok1⟩ := analyzeGroups_mem hg r1 hr1
        obtain ⟨g2, hg2, hok2⟩ := analyzeGroups_mem hg r2 hr2
        obtain ⟨-, hv1, ht1, -, -⟩ := analyzeGroup_ok hok1
        obtain ⟨-, hv2, ht2, -, -⟩ := analyzeGroup_ok hok2
        rw [ht1, ht2, ← hv1, ← hv2, hveq]

theorem C10_normality_once_witness :
    (some (1/2) : Option ℚ) = test_normality okOracles.shapiroFn (dropna exVals4) :=
  (C10_normality_once okOracles [("Kind of farm", exGnone4)] exVals4 4 (naRatio exVals4)
    (some (1/2)) [GroupResult.mk "Kind of farm" none .ANOVA (some (1/100)) (some none)]
    analyzeCol_okOracles_eval).1
